import Mathlib

/-!
Shallow embedding of the `ponyfmt` formatting engine (`src/formatter.rs`).

A tree-sitter node is modelled as a `PonyNode` carrying its kind tag, the
slice of the original source covered by its byte span (`node_text` in the
source), and its ordered children.  The mutable `FormatterState` of the Rust
code is threaded explicitly.  `tree_sitter::Node::parent()` lookups (used only
by the `call_expression` handler) are modelled by passing the list of ancestor
kinds, innermost first, down the traversal.

Rust string primitives (`trim`, `splitn`, `contains`, `split`,
`strip_prefix`/`strip_suffix`, `trim_end_matches`, `lines().count()`,
byte `len`) are re-implemented over `List Char` so that every definition
reduces inside the kernel.  Rust `char::is_whitespace` is Unicode
White_Space; on the ASCII inputs relevant here it coincides with the
four-character test below.
-/

/-- Whitespace test used by Rust `str::trim` (ASCII fragment). -/
def isWsChar (c : Char) : Bool :=
  c == ' ' || c == '\t' || c == '\n' || c == '\r'

/-- `str::trim` on a character list. -/
def trimChars (l : List Char) : List Char :=
  ((l.dropWhile isWsChar).reverse.dropWhile isWsChar).reverse

/-- `str::trim`. -/
def trimS (s : String) : String :=
  ⟨trimChars s.data⟩

/-- `str::starts_with`. -/
def startsWithS (s pat : String) : Bool :=
  pat.data.isPrefixOf s.data

/-- `str::ends_with`. -/
def endsWithS (s pat : String) : Bool :=
  pat.data.isSuffixOf s.data

/-- Split at every occurrence of the character `c` (Rust `str::split(c)`). -/
def splitOnChar (c : Char) : List Char → List (List Char)
  | [] => [[]]
  | x :: xs =>
    if x == c then [] :: splitOnChar c xs
    else
      match splitOnChar c xs with
      | [] => [[x]]
      | p :: ps => (x :: p) :: ps

/-- Split a character list at the first occurrence of the pattern `pat`,
returning the parts before and after it, or `none` when `pat` does not
occur (Rust `str::splitn(2, pat)` / `str::contains(pat)`). -/
def splitFirstChars (pat : List Char) : List Char → Option (List Char × List Char)
  | [] => none
  | x :: xs =>
    if pat.isPrefixOf (x :: xs) then some ([], (x :: xs).drop pat.length)
    else
      match splitFirstChars pat xs with
      | some (a, b) => some (x :: a, b)
      | none => none

/-- `str::splitn(2, pat)` as the two parts around the first occurrence. -/
def splitFirstS (s pat : String) : Option (String × String) :=
  match splitFirstChars pat.data s.data with
  | some (a, b) => some (⟨a⟩, ⟨b⟩)
  | none => none

/-- `str::contains(pat)` for a non-empty needle. -/
def containsSub (s pat : String) : Bool :=
  (splitFirstChars pat.data s.data).isSome

/-- One step of `str::trim_end_matches("end")`, iterated with fuel. -/
def trimEndMatchesEndAux : Nat → List Char → List Char
  | 0, l => l
  | Nat.succ n, l =>
    if ("end".data).isSuffixOf l then trimEndMatchesEndAux n (l.take (l.length - 3))
    else l

/-- `str::trim_end_matches("end")`: repeatedly remove a trailing `end`. -/
def trimEndMatchesEnd (s : String) : String :=
  ⟨trimEndMatchesEndAux s.data.length s.data⟩

/-- `str::lines().count()`: number of lines, a trailing newline not opening
a further empty line. -/
def linesCount (s : String) : Nat :=
  if s.data.isEmpty then 0
  else
    let parts := splitOnChar '\n' s.data
    if s.data.getLast? == some '\n' then parts.length - 1 else parts.length

/-- A run of `n` spaces. -/
def spacesStr (n : Nat) : String :=
  ⟨List.replicate n ' '⟩

/-- Drop every whitespace character of a string (used to compare the
non-whitespace content of input and output). -/
def stripWhitespace (s : String) : String :=
  ⟨s.data.filter (fun c => !(isWsChar c))⟩

/-- The lines of a string, splitting at every newline. -/
def linesOf (s : String) : List String :=
  (splitOnChar '\n' s.data).map (fun l => ⟨l⟩)

/-- Output mode of the formatter (`Mode` in the source); never read by the
formatting engine itself. -/
inductive Mode where
  | stdout
  | write
  | check
deriving Repr, DecidableEq

/-- Configuration options (`FormatOptions` in the source). -/
structure FormatOptions where
  indent_width : Nat
  mode : Mode

/-- `FormatOptions::default()`: indent width 2, stdout mode. -/
def FormatOptions.default : FormatOptions :=
  { indent_width := 2, mode := Mode.stdout }

/-- The formatter state (`FormatterState` in the source).  `indent_level`
is a Rust `usize`; it is modelled as an `Int` so that its non-negativity is
a proved invariant of the run rather than an assumption of the type. -/
structure FormatterState where
  output : String
  indent_level : Int
  current_line_has_content : Bool
deriving Repr, DecidableEq

/-- `FormatterState::new()`. -/
def FormatterState.new : FormatterState :=
  { output := "", indent_level := 0, current_line_has_content := false }

/-- `FormatterState::write_indent`. -/
def FormatterState.write_indent (s : FormatterState) (opts : FormatOptions) : FormatterState :=
  if s.current_line_has_content then s
  else { s with output := s.output ++ spacesStr (s.indent_level.toNat * opts.indent_width) }

/-- `FormatterState::write_text`. -/
def FormatterState.write_text (s : FormatterState) (text : String) : FormatterState :=
  { s with output := s.output ++ text, current_line_has_content := true }

/-- `FormatterState::write_newline`. -/
def FormatterState.write_newline (s : FormatterState) : FormatterState :=
  { s with output := s.output ++ "\n", current_line_has_content := false }

/-- `FormatterState::write_blank_line`. -/
def FormatterState.write_blank_line (s : FormatterState) : FormatterState :=
  let s := if s.current_line_has_content then s.write_newline else s
  s.write_newline

/-- `FormatterState::increase_indent`. -/
def FormatterState.increase_indent (s : FormatterState) : FormatterState :=
  { s with indent_level := s.indent_level + 1 }

/-- `FormatterState::decrease_indent`. -/
def FormatterState.decrease_indent (s : FormatterState) : FormatterState :=
  if s.indent_level > 0 then { s with indent_level := s.indent_level - 1 } else s

/-- A parsed syntax-tree node: kind tag, source text of its byte span, and
ordered children (empty for tokens). -/
inductive PonyNode where
  | node (kind : String) (text : String) (children : List PonyNode)

/-- The kind tag of a node (`Node::kind`). -/
def PonyNode.kind : PonyNode → String
  | .node k _ _ => k

/-- The source slice covered by the node's byte span. -/
def PonyNode.text : PonyNode → String
  | .node _ t _ => t

/-- The ordered children of a node (`Node::children`). -/
def PonyNode.children : PonyNode → List PonyNode
  | .node _ _ cs => cs

/-- `node_text`: the original source text of a node's byte span. -/
def node_text (n : PonyNode) : String :=
  n.text

/-- The blank-line adjacency decision of the `source_file` handler,
with the Rust match arms in order. -/
def needs_blank_line (prev kind : String) : Bool :=
  if prev == "block_comment" && kind != "block_comment" && kind != "line_comment" then true
  else if prev == "primitive_definition" && kind != "primitive_definition" && kind != "line_comment" then true
  else if prev == "type_alias" && kind != "type_alias" && kind != "line_comment" then true
  else if prev == "trait_definition" && kind != "trait_definition" && kind != "line_comment" then true
  else if prev == "class_definition" && kind != "line_comment" then true
  else if (prev == "class_definition" || prev == "trait_definition" || prev == "primitive_definition")
      && kind == "line_comment" then true
  else if prev == "use_statement" && kind != "use_statement" && kind != "line_comment" then true
  else false

/-- The `use_statement` child loop: write the text of the first child of
kind `string`, if any, then stop. -/
def fmtUseChildren (cs : List PonyNode) (s : FormatterState) : FormatterState :=
  match cs.find? (fun c => c.kind == "string") with
  | some c => s.write_text (node_text c)
  | none => s

/-- `strip_prefix('(')` then `strip_suffix(')')` on a character list. -/
def stripParenChars (l : List Char) : List Char :=
  let l1 := match l with
    | '(' :: rest => rest
    | _ => l
  match l1.reverse with
  | ')' :: r => r.reverse
  | _ => l1

/-- The argument pieces collected by `format_arguments`: split the content
between the parentheses at commas, trim each piece, drop empty pieces. -/
def argPiecesChars (t : String) : List (List Char) :=
  ((splitOnChar ',' (stripParenChars t.data)).map trimChars).filter (fun a => !a.isEmpty)

/-- The argument-writing loop of `format_arguments`: `, ` before every
piece but the first. -/
def writeArgs (args : List (List Char)) (first : Bool) (s : FormatterState) : FormatterState :=
  match args with
  | [] => s
  | a :: rest =>
    writeArgs rest false ((if !first then s.write_text ", " else s).write_text ⟨a⟩)

/-- `format_arguments`: re-render an argument list on a single line. -/
def format_arguments (n : PonyNode) (s : FormatterState) (_opts : FormatOptions) : FormatterState :=
  let full_text := node_text n
  (writeArgs (argPiecesChars full_text) true (s.write_text "(")).write_text ")"

/-- The `primitive_definition` child loop. -/
def fmtPrimitiveChildren (cs : List PonyNode) (s : FormatterState) : FormatterState :=
  match cs with
  | [] => s
  | c :: rest =>
    let s :=
      if c.kind == "primitive" then (s.write_text (node_text c)).write_text " "
      else if c.kind == "identifier" then s.write_text (node_text c)
      else s
    fmtPrimitiveChildren rest s

/-- First loop of the `type_definition` handler: write the first
`identifier` child and stop. -/
def fmtTypeDefName (cs : List PonyNode) (s : FormatterState) : FormatterState :=
  match cs with
  | [] => s
  | c :: rest =>
    if c.kind == "identifier" then s.write_text (node_text c)
    else fmtTypeDefName rest s

/-- Second loop of the `type_definition` handler: at the first `is` child
write ` is ` and the text of the next sibling, then stop. -/
def fmtTypeDefIs (cs : List PonyNode) (s : FormatterState) : FormatterState :=
  match cs with
  | [] => s
  | c :: rest =>
    if c.kind == "is" then
      let s := s.write_text " is "
      match rest with
      | next :: _ => s.write_text (node_text next)
      | [] => s
    else fmtTypeDefIs rest s

/-- The `type_alias` child loop. -/
def fmtTypeAliasChildren (cs : List PonyNode) (s : FormatterState) : FormatterState :=
  match cs with
  | [] => s
  | c :: rest =>
    let s :=
      if c.kind == "identifier" then s.write_text (node_text c)
      else if c.kind == "is" then s.write_text " is "
      else if c.kind == "union_type" then s.write_text (node_text c)
      else s
    fmtTypeAliasChildren rest s

/-- The `field` child loop. -/
def fmtFieldChildren (cs : List PonyNode) (s : FormatterState) : FormatterState :=
  match cs with
  | [] => s
  | c :: rest =>
    let s :=
      if c.kind == "let" || c.kind == "var" || c.kind == "embed" then
        (s.write_text (node_text c)).write_text " "
      else if c.kind == "identifier" then s.write_text (node_text c)
      else if c.kind == ":" then s.write_text ": "
      else if c.kind == "base_type" then s.write_text (node_text c)
      else if c.kind == "=" then s.write_text " = "
      else
        if c.kind != "let" && c.kind != "var" && c.kind != "embed"
            && c.kind != "identifier" && c.kind != ":" && c.kind != "="
            && c.kind != "base_type" then
          s.write_text (node_text c)
        else s
    fmtFieldChildren rest s

/-- The `field_definition` child loop. -/
def fmtFieldDefChildren (cs : List PonyNode) (s : FormatterState) : FormatterState :=
  match cs with
  | [] => s
  | c :: rest =>
    let s :=
      if c.kind == "let" || c.kind == "var" || c.kind == "embed" then
        (s.write_text (node_text c)).write_text " "
      else if c.kind == "identifier" then s.write_text (node_text c)
      else if c.kind == ":" then s.write_text ": "
      else if c.kind == "=" then s.write_text " = "
      else
        if c.kind != "let" && c.kind != "var" && c.kind != "embed"
            && c.kind != "identifier" && c.kind != ":" && c.kind != "=" then
          s.write_text (node_text c)
        else s
    fmtFieldDefChildren rest s

/-- `format_if_block`: writes `if ` and the condition text. -/
def fmtIfBlockChildren (cs : List PonyNode) (s : FormatterState) : FormatterState :=
  match cs with
  | [] => s
  | c :: rest =>
    let s :=
      if c.kind == "if" then s.write_text "if "
      else if c.kind == "block" then (s.write_text (node_text c)).write_text " "
      else s
    fmtIfBlockChildren rest s

/-- The single-line writer for a block of simple assignments. -/
def writeSimpleAssignments (cs : List PonyNode) (first : Bool) (s : FormatterState) : FormatterState :=
  match cs with
  | [] => s
  | c :: rest =>
    if c.kind == "assignment_expression" then
      writeSimpleAssignments rest false
        ((if !first then s.write_text " " else s).write_text (node_text c))
    else if c.kind == ";" then
      writeSimpleAssignments rest first (s.write_text ";")
    else writeSimpleAssignments rest first s

/-- The standalone test of the `call_expression` handler:
`parent.is_none() || (parent is a block && grandparent is not an
assignment_expression)`, over the ancestor-kind list. -/
def isStandaloneCall (parents : List String) : Bool :=
  match parents with
  | [] => true
  | p :: rest =>
    p == "block" &&
      (match rest with
       | [] => false
       | gp :: _ => gp != "assignment_expression")

/-- The `ERROR` recovery path of `format_node`, a function of the node's
raw text only. -/
def formatErrorText (text : String) (s : FormatterState) (opts : FormatOptions) : FormatterState :=
  if startsWithS text "if " && containsSub text "then" then
    let s := s.write_indent opts
    match splitFirstS text "then" with
    | some (a, b) =>
      let s := (s.write_text (trimS a ++ " then")).write_newline
      let s := s.increase_indent
      if !(trimS b).data.isEmpty then (s.write_indent opts).write_text (trimS b) else s
    | none => s
  else if trimS text == "end" || endsWithS text "end" then
    let s :=
      if !(trimS text == "end") then
        let content := trimS (trimEndMatchesEnd text)
        if !content.data.isEmpty then (s.write_text content).write_newline else s
      else s
    (((s.decrease_indent).write_indent opts).write_text "end").write_newline
  else
    ((s.write_indent opts).write_text text).write_newline

mutual

/-- `format_node`: the tree walker and kind dispatcher.  `parents` is the
list of ancestor kinds, innermost first (the tree-sitter `parent()` chain). -/
def formatNode (parents : List String) (n : PonyNode) (s : FormatterState)
    (opts : FormatOptions) : FormatterState :=
  match n with
  | .node kind text children =>
    match kind with
    | "source_file" =>
      fmtSourceChildren ("source_file" :: parents) none children s opts
    | "block_comment" | "line_comment" =>
      ((s.write_indent opts).write_text text).write_newline
    | "use_statement" =>
      (fmtUseChildren children ((s.write_indent opts).write_text "use ")).write_newline
    | "actor_definition" | "class_definition" =>
      fmtClassChildren (kind :: parents) children (s.write_indent opts) opts
    | "trait_definition" =>
      fmtTraitChildren ("trait_definition" :: parents) children (s.write_indent opts) opts
    | "primitive_definition" =>
      (fmtPrimitiveChildren children (s.write_indent opts)).write_newline
    | "type_definition" =>
      (fmtTypeDefIs children
        (fmtTypeDefName children ((s.write_indent opts).write_text "type "))).write_newline
    | "type_alias" =>
      (fmtTypeAliasChildren children ((s.write_indent opts).write_text "type ")).write_newline
    | "members" =>
      fmtList ("members" :: parents) children s opts
    | "field" =>
      (fmtFieldChildren children (s.write_indent opts)).write_newline
    | "field_definition" =>
      (fmtFieldDefChildren children (s.write_indent opts)).write_newline
    | "method" =>
      (fmtMethodChildren ("method" :: parents) children (s.write_indent opts) opts).write_newline
    | "constructor" | "function_definition" =>
      fmtCtorChildren (kind :: parents) children (s.write_indent opts) opts
    | "if_statement" =>
      fmtIfChildren ("if_statement" :: parents) children (s.write_indent opts) opts
    | "block" =>
      let simple := children.all (fun c => c.kind == "assignment_expression" || c.kind == ";")
      if simple && Nat.blt 2 children.length then
        (writeSimpleAssignments children true (s.write_indent opts)).write_newline
      else fmtList ("block" :: parents) children s opts
    | "call_expression" =>
      let s := if isStandaloneCall parents then s.write_indent opts else s
      let s := fmtCallChildren ("call_expression" :: parents) children s opts
      if isStandaloneCall parents then s.write_newline else s
    | "assignment_expression" =>
      (fmtAssignChildren ("assignment_expression" :: parents) children true
        (s.write_indent opts) opts).write_newline
    | "variable_declaration" => s
    | "assignment" =>
      ((s.write_indent opts).write_text text).write_newline
    | "actor" | "class" | "trait" | "primitive" | "new" | "fun" | "be" | "let" | "var"
    | "embed" | "identifier" | "parameters" | ":" | "=>" | "val" | "ref" | "iso" | "trn"
    | "box" | "tag" | "(" | ")" | "=" | "if" | "then" | "end" | "is" | "capability" => s
    | "ERROR" => formatErrorText text s opts
    | "string" => s.write_text text
    | _ => fmtList (kind :: parents) children s opts

/-- Generic child fold (the `members`, fallback and general-`block` loops). -/
def fmtList (parents : List String) (cs : List PonyNode) (s : FormatterState)
    (opts : FormatOptions) : FormatterState :=
  match cs with
  | [] => s
  | c :: rest => fmtList parents rest (formatNode parents c s opts) opts

/-- The `source_file` child loop with its previous-kind blank-line logic. -/
def fmtSourceChildren (parents : List String) (prev : Option String) (cs : List PonyNode)
    (s : FormatterState) (opts : FormatOptions) : FormatterState :=
  match cs with
  | [] => s
  | c :: rest =>
    let s :=
      match prev with
      | some p => if needs_blank_line p c.kind then s.write_blank_line else s
      | none => s
    fmtSourceChildren parents (some c.kind) rest (formatNode parents c s opts) opts

/-- The `actor_definition` / `class_definition` child loop. -/
def fmtClassChildren (parents : List String) (cs : List PonyNode) (s : FormatterState)
    (opts : FormatOptions) : FormatterState :=
  match cs with
  | [] => s
  | c :: rest =>
    let s :=
      if c.kind == "actor" || c.kind == "class" then (s.write_text (node_text c)).write_text " "
      else if c.kind == "capability" then (s.write_text (node_text c)).write_text " "
      else if c.kind == "identifier" then s.write_text (node_text c)
      else if c.kind == "is" then s.write_text " is "
      else if c.kind == "base_type" then s.write_text (node_text c)
      else if c.kind == "members" then
        (formatNode parents c ((s.write_newline).increase_indent) opts).decrease_indent
      else s
    fmtClassChildren parents rest s opts

/-- The `trait_definition` child loop. -/
def fmtTraitChildren (parents : List String) (cs : List PonyNode) (s : FormatterState)
    (opts : FormatOptions) : FormatterState :=
  match cs with
  | [] => s
  | c :: rest =>
    let s :=
      if c.kind == "trait" then (s.write_text (node_text c)).write_text " "
      else if c.kind == "capability" then (s.write_text (node_text c)).write_text " "
      else if c.kind == "identifier" then s.write_text (node_text c)
      else if c.kind == "members" then
        (formatNode parents c ((s.write_newline).increase_indent) opts).decrease_indent
      else s
    fmtTraitChildren parents rest s opts

/-- The `method` child loop, with the single-line body heuristic. -/
def fmtMethodChildren (parents : List String) (cs : List PonyNode) (s : FormatterState)
    (opts : FormatOptions) : FormatterState :=
  match cs with
  | [] => s
  | c :: rest =>
    let s :=
      if c.kind == "fun" then (s.write_text (node_text c)).write_text " "
      else if c.kind == "identifier" then s.write_text (node_text c)
      else if c.kind == "parameters" then s.write_text (node_text c)
      else if c.kind == ":" then s.write_text ": "
      else if c.kind == "base_type" then s.write_text (node_text c)
      else if c.kind == "=>" then s.write_text " =>"
      else if c.kind == "block" then
        let block_text := node_text c
        let trimmed := trimS block_text
        if linesCount trimmed == 1 && Nat.blt trimmed.utf8ByteSize 50 then
          (s.write_text " ").write_text trimmed
        else
          (formatNode parents c ((s.write_newline).increase_indent) opts).decrease_indent
      else s
    fmtMethodChildren parents rest s opts

/-- The `constructor` / `function_definition` child loop: the body block is
always placed on its own indented line. -/
def fmtCtorChildren (parents : List String) (cs : List PonyNode) (s : FormatterState)
    (opts : FormatOptions) : FormatterState :=
  match cs with
  | [] => s
  | c :: rest =>
    let s :=
      if c.kind == "new" || c.kind == "fun" || c.kind == "be" then
        (s.write_text (node_text c)).write_text " "
      else if c.kind == "val" || c.kind == "ref" || c.kind == "iso" || c.kind == "trn"
          || c.kind == "box" || c.kind == "tag" then s
      else if c.kind == "capability" then (s.write_text (node_text c)).write_text " "
      else if c.kind == "identifier" then s.write_text (node_text c)
      else if c.kind == "parameters" then s.write_text (node_text c)
      else if c.kind == ":" then s.write_text ": "
      else if c.kind == "=>" then s.write_text " =>"
      else if c.kind == "block" then
        (formatNode parents c ((s.write_newline).increase_indent) opts).decrease_indent
      else
        if c.kind != "new" && c.kind != "fun" && c.kind != "be"
            && c.kind != "identifier" && c.kind != "parameters" && c.kind != ":"
            && c.kind != "=>" && c.kind != "block" && c.kind != "capability"
            && c.kind != "val" && c.kind != "ref" && c.kind != "iso"
            && c.kind != "trn" && c.kind != "box" && c.kind != "tag" then
          s.write_text (node_text c)
        else s
    fmtCtorChildren parents rest s opts

/-- The `if_statement` child loop. -/
def fmtIfChildren (parents : List String) (cs : List PonyNode) (s : FormatterState)
    (opts : FormatOptions) : FormatterState :=
  match cs with
  | [] => s
  | c :: rest =>
    let s :=
      if c.kind == "if_block" then
        match c with
        | .node _ _ ccs => fmtIfBlockChildren ccs s
      else if c.kind == "then_block" then
        match c with
        | .node _ _ ccs => fmtThenChildren ("then_block" :: parents) ccs s opts
      else if c.kind == "end" then
        (((s.write_indent opts).write_text "end").write_newline)
      else s
    fmtIfChildren parents rest s opts

/-- `format_then_block`: the `then_block` child loop. -/
def fmtThenChildren (parents : List String) (cs : List PonyNode) (s : FormatterState)
    (opts : FormatOptions) : FormatterState :=
  match cs with
  | [] => s
  | c :: rest =>
    let s :=
      if c.kind == "then" then (s.write_text "then").write_newline
      else if c.kind == "block" then
        (formatNode parents c (s.increase_indent) opts).decrease_indent
      else s
    fmtThenChildren parents rest s opts

/-- The `call_expression` child loop. -/
def fmtCallChildren (parents : List String) (cs : List PonyNode) (s : FormatterState)
    (opts : FormatOptions) : FormatterState :=
  match cs with
  | [] => s
  | c :: rest =>
    let s :=
      if c.kind == "member_expression" then s.write_text (node_text c)
      else if c.kind == "identifier" then s.write_text (node_text c)
      else if c.kind == "arguments" then format_arguments c s opts
      else formatNode parents c s opts
    fmtCallChildren parents rest s opts

/-- The `assignment_expression` child loop with its leading-space flag. -/
def fmtAssignChildren (parents : List String) (cs : List PonyNode) (first : Bool)
    (s : FormatterState) (opts : FormatOptions) : FormatterState :=
  match cs with
  | [] => s
  | c :: rest =>
    let s :=
      if c.kind == "variable_declaration" then s.write_text (node_text c)
      else if c.kind == "identifier" then
        (if !first then s.write_text " " else s).write_text (node_text c)
      else if c.kind == "=" then s.write_text " = "
      else if c.kind == "block" then
        match c with
        | .node _ _ bcs =>
          let singleSimple :=
            match bcs with
            | [only] =>
              only.kind == "identifier" || only.kind == "number"
                || only.kind == "string" || only.kind == "boolean"
            | _ => false
          let singleText :=
            match bcs with
            | [only] => node_text only
            | _ => ""
          if singleSimple then s.write_text singleText
          else fmtList ("block" :: parents) bcs s opts
      else formatNode parents c s opts
    fmtAssignChildren parents rest false s opts

end

/-- `format_source` after a successful parse: run `format_node` on the root
with a fresh state and return the accumulated output. -/
def format_source (tree : PonyNode) (opts : FormatOptions) : String :=
  (formatNode [] tree FormatterState.new opts).output

/-- The `Result` shape of `format_source`: a parse failure is the only
error; given a tree the formatter always returns `Ok`. -/
def formatSourceResult (parsed : Option PonyNode) (opts : FormatOptions) :
    Except String String :=
  match parsed with
  | none => Except.error "Failed to parse Pony source"
  | some tree => Except.ok (format_source tree opts)

/-- The text `write_indent` adds: nothing when the current line already has
content, otherwise `indent_level * indent_width` spaces. -/
def indentOf (s : FormatterState) (opts : FormatOptions) : String :=
  if s.current_line_has_content then ""
  else spacesStr (s.indent_level.toNat * opts.indent_width)

/-- Joining strings with `, ` between them, as the spec describes the
argument-list rendering. -/
def joinCommaSpace : List String → String
  | [] => ""
  | [a] => a
  | a :: rest => a ++ ", " ++ joinCommaSpace rest

/-- Every node kind named by an arm of the `format_node` dispatch; any
other kind falls into the recurse-into-children fallback. -/
def handledKinds : List String :=
  ["source_file", "block_comment", "line_comment", "use_statement",
   "actor_definition", "class_definition", "trait_definition",
   "primitive_definition", "type_definition", "type_alias", "members",
   "field", "field_definition", "method", "constructor",
   "function_definition", "if_statement", "block", "call_expression",
   "assignment_expression", "variable_declaration", "assignment",
   "actor", "class", "trait", "primitive", "new", "fun", "be", "let",
   "var", "embed", "identifier", "parameters", ":", "=>", "val", "ref",
   "iso", "trn", "box", "tag", "(", ")", "=", "if", "then", "end", "is",
   "capability", "ERROR", "string"]

/-- Helper for reasoning about the argument-writing loop: the text written
for every piece after the first. -/
def joinPieces : List (List Char) → String
  | [] => ""
  | a :: rest => ", " ++ (⟨a⟩ : String) ++ joinPieces rest

/-- The tree the parser produces for the aliased import
`use foo = "bar"`: a `use_statement` whose children are the `use`
keyword, the alias identifier, the `=` token and the string. -/
def exampleAliasedUse : PonyNode :=
  .node "source_file" "use foo = \"bar\""
    [.node "use_statement" "use foo = \"bar\""
      [.node "use" "use" [], .node "identifier" "foo" [],
       .node "=" "=" [], .node "string" "\"bar\"" []]]

/-- A constructor node `new create() => 1` whose body block is the single
short expression `1`. -/
def exampleShortCtor : PonyNode :=
  .node "constructor" "new create() =>\n1"
    [.node "new" "new" [], .node "identifier" "create" [],
     .node "parameters" "()" [], .node "=>" "=>" [],
     .node "block" "1" [.node "number" "1" []]]

/-! ### Basic lemmas about the formatter state primitives -/

theorem sdata_append (a b : String) : (a ++ b).data = a.data ++ b.data := by
  cases a; cases b; rfl

theorem sappend_empty (a : String) : a ++ "" = a := by
  cases a with
  | mk l => show String.mk (l ++ []) = String.mk l; rw [List.append_nil]

theorem sappend_assoc (a b c : String) : a ++ b ++ c = a ++ (b ++ c) := by
  cases a; cases b; cases c
  show String.mk _ = String.mk _
  rw [List.append_assoc]

@[simp] theorem write_text_output (s : FormatterState) (t : String) :
    (s.write_text t).output = s.output ++ t := rfl

@[simp] theorem write_text_indent (s : FormatterState) (t : String) :
    (s.write_text t).indent_level = s.indent_level := rfl

@[simp] theorem write_text_content (s : FormatterState) (t : String) :
    (s.write_text t).current_line_has_content = true := rfl

@[simp] theorem write_newline_output (s : FormatterState) :
    s.write_newline.output = s.output ++ "\n" := rfl

@[simp] theorem write_newline_indent (s : FormatterState) :
    s.write_newline.indent_level = s.indent_level := rfl

@[simp] theorem write_newline_content (s : FormatterState) :
    s.write_newline.current_line_has_content = false := rfl

@[simp] theorem write_indent_output (s : FormatterState) (opts : FormatOptions) :
    (s.write_indent opts).output = s.output ++ indentOf s opts := by
  unfold FormatterState.write_indent indentOf
  split
  · rw [sappend_empty]
  · rfl

@[simp] theorem write_indent_indent (s : FormatterState) (opts : FormatOptions) :
    (s.write_indent opts).indent_level = s.indent_level := by
  unfold FormatterState.write_indent; split <;> rfl

@[simp] theorem write_indent_content (s : FormatterState) (opts : FormatOptions) :
    (s.write_indent opts).current_line_has_content = s.current_line_has_content := by
  unfold FormatterState.write_indent; split <;> rfl

@[simp] theorem write_blank_line_output (s : FormatterState) :
    s.write_blank_line.output
      = (if s.current_line_has_content then s.output ++ "\n" else s.output) ++ "\n" := by
  unfold FormatterState.write_blank_line
  split <;> rfl

@[simp] theorem write_blank_line_indent (s : FormatterState) :
    s.write_blank_line.indent_level = s.indent_level := by
  unfold FormatterState.write_blank_line; split <;> rfl

@[simp] theorem write_blank_line_content (s : FormatterState) :
    s.write_blank_line.current_line_has_content = false := by
  unfold FormatterState.write_blank_line; split <;> rfl

@[simp] theorem increase_indent_output (s : FormatterState) :
    s.increase_indent.output = s.output := rfl

@[simp] theorem increase_indent_indent (s : FormatterState) :
    s.increase_indent.indent_level = s.indent_level + 1 := rfl

@[simp] theorem increase_indent_content (s : FormatterState) :
    s.increase_indent.current_line_has_content = s.current_line_has_content := rfl

@[simp] theorem decrease_indent_output (s : FormatterState) :
    s.decrease_indent.output = s.output := by
  unfold FormatterState.decrease_indent; split <;> rfl

@[simp] theorem decrease_indent_content (s : FormatterState) :
    s.decrease_indent.current_line_has_content = s.current_line_has_content := by
  unfold FormatterState.decrease_indent; split <;> rfl

theorem decrease_indent_nonneg (s : FormatterState) (h : 0 ≤ s.indent_level) :
    0 ≤ s.decrease_indent.indent_level := by
  unfold FormatterState.decrease_indent
  split
  · show 0 ≤ s.indent_level - 1
    omega
  · exact h

/-! ### C1: totality of the formatting engine -/

set_option maxHeartbeats 4000000 in
theorem formatNode_fallback_aux (parents : List String) (k t : String) (cs : List PonyNode)
    (s : FormatterState) (opts : FormatOptions) (h : ¬ k ∈ handledKinds) :
    formatNode parents (.node k t cs) s opts = fmtList (k :: parents) cs s opts := by
  rw [formatNode]
  all_goals intro hk
  all_goals subst hk
  all_goals exact h (by decide)

/-- C1: for every tree the parser produces (well-formed or with
error-tagged or unrecognized kinds), `format_source` completes and returns
a string, never an error: `format_source` is a total function, the
`Result` it wraps is always `Ok`, and a node of a kind named by no
dispatch arm falls back to recursing into its children. -/
theorem ponyfmt_C1_totality :
    (∀ (tree : PonyNode) (opts : FormatOptions), ∃ out, format_source tree opts = out)
    ∧ (∀ (tree : PonyNode) (opts : FormatOptions),
        formatSourceResult (some tree) opts = Except.ok (format_source tree opts))
    ∧ (∀ (parents : List String) (k t : String) (cs : List PonyNode)
        (s : FormatterState) (opts : FormatOptions), ¬ k ∈ handledKinds →
        formatNode parents (.node k t cs) s opts = fmtList (k :: parents) cs s opts) :=
  ⟨fun tree opts => ⟨format_source tree opts, rfl⟩,
   fun _ _ => rfl,
   formatNode_fallback_aux⟩

/-- Witness for C1: the third conjunct applied to the concrete
unrecognized kind `wibble`. -/
theorem ponyfmt_C1_totality_witness :
    formatNode [] (.node "wibble" "xyz" []) FormatterState.new FormatOptions.default
      = fmtList ["wibble"] [] FormatterState.new FormatOptions.default :=
  ponyfmt_C1_totality.2.2 [] "wibble" "xyz" [] FormatterState.new FormatOptions.default
    (by decide)

/-! ### C4: determinism -/

/-- C4: formatting is deterministic — two independent runs over the same
tree, each starting from its own fresh `FormatterState`, produce
byte-identical output. -/
theorem ponyfmt_C4_deterministic (tree : PonyNode) (opts : FormatOptions)
    (s₁ s₂ : FormatterState) (h₁ : s₁ = FormatterState.new) (h₂ : s₂ = FormatterState.new) :
    (formatNode [] tree s₁ opts).output = (formatNode [] tree s₂ opts).output
    ∧ (formatNode [] tree s₁ opts).output = format_source tree opts := by
  subst h₁; subst h₂; exact ⟨rfl, rfl⟩

/-- Witness for C4 at a concrete tree. -/
theorem ponyfmt_C4_deterministic_witness :
    (formatNode [] (.node "source_file" "" []) FormatterState.new FormatOptions.default).output
      = format_source (.node "source_file" "" []) FormatOptions.default :=
  (ponyfmt_C4_deterministic (.node "source_file" "" []) FormatOptions.default
    FormatterState.new FormatterState.new rfl rfl).2

/-! ### C6 and C10 helper lemmas -/

theorem use_statement_unfold (parents : List String) (t : String) (cs : List PonyNode)
    (s : FormatterState) (opts : FormatOptions) :
    formatNode parents (.node "use_statement" t cs) s opts
      = (fmtUseChildren cs ((s.write_indent opts).write_text "use ")).write_newline := rfl

theorem use_statement_output (parents : List String) (t : String) (cs : List PonyNode)
    (s : FormatterState) (opts : FormatOptions) (c : PonyNode)
    (hfind : cs.find? (fun d => d.kind == "string") = some c) :
    (formatNode parents (.node "use_statement" t cs) s opts).output
      = s.output ++ (indentOf s opts ++ ("use " ++ (node_text c ++ "\n"))) := by
  rw [use_statement_unfold]
  simp [fmtUseChildren, hfind, sappend_assoc]

theorem writeArgs_false_output (args : List (List Char)) (s : FormatterState) :
    (writeArgs args false s).output = s.output ++ joinPieces args := by
  induction args generalizing s with
  | nil => simp [writeArgs, joinPieces, sappend_empty]
  | cons a rest ih =>
    simp [writeArgs, joinPieces, ih, sappend_assoc]

theorem joinPieces_commaSpace (a : List Char) (rest : List (List Char)) :
    (⟨a⟩ : String) ++ joinPieces rest
      = joinCommaSpace ((a :: rest).map (fun l => (⟨l⟩ : String))) := by
  induction rest generalizing a with
  | nil => simp [joinPieces, joinCommaSpace, sappend_empty]
  | cons b rs ih =>
    simp only [joinPieces, joinCommaSpace, List.map]
    have h2 := ih b
    simp only [List.map] at h2
    rw [← h2, ← sappend_assoc, ← sappend_assoc, sappend_assoc]

theorem writeArgs_true_output (args : List (List Char)) (s : FormatterState) :
    (writeArgs args true s).output
      = s.output ++ joinCommaSpace (args.map (fun l => (⟨l⟩ : String))) := by
  cases args with
  | nil => simp [writeArgs, joinCommaSpace, sappend_empty]
  | cons a rest =>
    rw [show writeArgs (a :: rest) true s = writeArgs rest false (s.write_text ⟨a⟩) from rfl]
    rw [writeArgs_false_output]
    simp only [write_text_output]
    rw [sappend_assoc, joinPieces_commaSpace]

/-! ### C6: argument-list flattening -/

/-- C6: the `format_arguments` handler always renders an argument list on
one line: the text between the parentheses is split at commas, the pieces
are trimmed, empty pieces are dropped, and the pieces are re-joined with
`, ` between them and no space inside the parentheses; in particular
`(\n  a,\n  b ,c\n)` formats to `(a, b, c)`. -/
theorem ponyfmt_C6_argument_flattening :
    (∀ (n : PonyNode) (s : FormatterState) (opts : FormatOptions),
      (format_arguments n s opts).output
        = s.output ++ ("(" ++ (joinCommaSpace
            ((argPiecesChars (node_text n)).map (fun l => (⟨l⟩ : String))) ++ ")")))
    ∧ (format_arguments (.node "arguments" "(\n  a,\n  b ,c\n)" [])
        FormatterState.new FormatOptions.default).output = "(a, b, c)" := by
  constructor
  · intro n s opts
    unfold format_arguments
    simp [writeArgs_true_output, sappend_assoc]
  · rfl

/-! ### C10: the use-statement handler keeps only the string child -/

/-- C10: for every `use_statement` node, the formatter emits exactly the
(possibly indented) text `use ` followed by the text of the node's first
child of kind `string` and a newline; every other child token (e.g. an
alias identifier and `=`) is discarded and does not appear in the
output. -/
theorem ponyfmt_C10_use_statement (parents : List String) (t : String)
    (cs : List PonyNode) (s : FormatterState) (opts : FormatOptions) (c : PonyNode)
    (hfind : cs.find? (fun d => d.kind == "string") = some c) :
    (formatNode parents (.node "use_statement" t cs) s opts).output
      = s.output ++ (indentOf s opts ++ ("use " ++ (node_text c ++ "\n"))) :=
  use_statement_output parents t cs s opts c hfind

/-- Witness for C10: the aliased import `use foo = "bar"`; the alias and
`=` are dropped. -/
theorem ponyfmt_C10_use_statement_witness :
    (formatNode [] (.node "use_statement" "use foo = \"bar\""
      [.node "use" "use" [], .node "identifier" "foo" [],
       .node "=" "=" [], .node "string" "\"bar\"" []])
      FormatterState.new FormatOptions.default).output = "use \"bar\"\n" :=
  (ponyfmt_C10_use_statement [] "use foo = \"bar\""
    [.node "use" "use" [], .node "identifier" "foo" [],
     .node "=" "=" [], .node "string" "\"bar\"" []]
    FormatterState.new FormatOptions.default (.node "string" "\"bar\"" []) rfl).trans rfl

/-! ### C2: token preservation fails -/

theorem stripWhitespace_append (a b : String) :
    stripWhitespace (a ++ b) = stripWhitespace a ++ stripWhitespace b := by
  cases a with
  | mk la =>
    cases b with
    | mk lb =>
      show String.mk ((la ++ lb).filter _) = String.mk _
      rw [List.filter_append]

theorem stripWhitespace_indentOf (s : FormatterState) (opts : FormatOptions) :
    stripWhitespace (indentOf s opts) = "" := by
  unfold indentOf
  split
  · rfl
  · show String.mk ((List.replicate _ ' ').filter _) = ""
    rw [List.filter_replicate_of_neg (by decide)]

/-- C2 counterexample: for the well-formed aliased import
`use foo = "bar"` (accepted by the parser with the tree
`exampleAliasedUse`), the formatted output's non-whitespace character
sequence differs from the input's: the alias identifier `foo` and the `=`
token are gone, so the re-parsed output cannot carry the same
non-whitespace token texts as the input. -/
theorem ponyfmt_C2_counterexample :
    stripWhitespace (format_source exampleAliasedUse FormatOptions.default) = "use\"bar\""
    ∧ stripWhitespace (node_text exampleAliasedUse) = "usefoo=\"bar\""
    ∧ ("use\"bar\"" : String) ≠ "usefoo=\"bar\"" := by
  refine ⟨rfl, rfl, ?_⟩
  decide

/-- C2 (amended): formatting does not preserve token content or order in
general.  For every `use_statement` node with a string child, the
non-whitespace content the handler appends is exactly `use` followed by
the string child's text: every other child token of the use statement is
dropped, so for aliased imports the output's token sequence differs from
the input's. -/
theorem ponyfmt_C2_amended (parents : List String) (t : String) (cs : List PonyNode)
    (s : FormatterState) (opts : FormatOptions) (c : PonyNode)
    (hfind : cs.find? (fun d => d.kind == "string") = some c) :
    stripWhitespace ((formatNode parents (.node "use_statement" t cs) s opts).output)
      = stripWhitespace s.output ++ ("use" ++ stripWhitespace (node_text c)) := by
  rw [use_statement_output parents t cs s opts c hfind]
  rw [stripWhitespace_append, stripWhitespace_append, stripWhitespace_append,
    stripWhitespace_append, stripWhitespace_indentOf]
  rw [show stripWhitespace "use " = "use" from rfl, show stripWhitespace "\n" = "" from rfl]
  rw [sappend_empty, show ("" : String) ++ ("use" ++ stripWhitespace (node_text c))
      = "use" ++ stripWhitespace (node_text c) from rfl]

/-- Witness for C2 (amended): the aliased import again. -/
theorem ponyfmt_C2_amended_witness :
    stripWhitespace ((formatNode [] (.node "use_statement" "use foo = \"bar\""
      [.node "use" "use" [], .node "identifier" "foo" [],
       .node "=" "=" [], .node "string" "\"bar\"" []])
      FormatterState.new FormatOptions.default).output) = "use\"bar\"" :=
  (ponyfmt_C2_amended [] "use foo = \"bar\""
    [.node "use" "use" [], .node "identifier" "foo" [],
     .node "=" "=" [], .node "string" "\"bar\"" []]
    FormatterState.new FormatOptions.default (.node "string" "\"bar\"" []) rfl).trans rfl

/-! ### C3: trailing newline -/

theorem endsWithS_append_newline (a : String) : endsWithS (a ++ "\n") "\n" = true := by
  unfold endsWithS
  rw [sdata_append]
  simp [List.isSuffixOf, List.isPrefixOf]

theorem fmtSourceChildren_last (parents : List String) (c : PonyNode) (opts : FormatOptions) :
    ∀ (cs : List PonyNode) (prev : Option String) (s : FormatterState),
    ∃ s', fmtSourceChildren parents prev (cs ++ [c]) s opts = formatNode parents c s' opts := by
  intro cs
  induction cs with
  | nil =>
    intro prev s
    refine ⟨?_, ?_⟩
    · exact
        match prev with
        | some p => if needs_blank_line p c.kind then s.write_blank_line else s
        | none => s
    · simp only [List.nil_append, fmtSourceChildren]
  | cons d rest ih =>
    intro prev s
    obtain ⟨s', hs'⟩ := ih (some d.kind)
      (formatNode parents d
        (match prev with
         | some p => if needs_blank_line p d.kind then s.write_blank_line else s
         | none => s) opts)
    exact ⟨s', by simpa only [List.cons_append, fmtSourceChildren] using hs'⟩

theorem formatNode_terminal_newline (parents : List String) (c : PonyNode)
    (s : FormatterState) (opts : FormatOptions)
    (h : c.kind = "use_statement" ∨ c.kind = "primitive_definition") :
    endsWithS ((formatNode parents c s opts).output) "\n" = true := by
  cases c with
  | node k t cs =>
    simp only [PonyNode.kind] at h
    rcases h with h | h <;> subst h
    · rw [show formatNode parents (.node "use_statement" t cs) s opts
          = (fmtUseChildren cs ((s.write_indent opts).write_text "use ")).write_newline from rfl]
      rw [write_newline_output]
      exact endsWithS_append_newline _
    · rw [show formatNode parents (.node "primitive_definition" t cs) s opts
          = (fmtPrimitiveChildren cs (s.write_indent opts)).write_newline from rfl]
      rw [write_newline_output]
      exact endsWithS_append_newline _

/-- C3 counterexample: the empty input is accepted by the parser (its tree
is an empty `source_file`), yet `format_source` returns the empty string,
which does not end with a newline — the output does not always end with
exactly one trailing newline. -/
theorem ponyfmt_C3_counterexample :
    format_source (.node "source_file" "" []) FormatOptions.default = ""
    ∧ endsWithS (format_source (.node "source_file" "" []) FormatOptions.default) "\n" = false :=
  ⟨rfl, rfl⟩

/-- C3 (amended): `format_source` appends no final newline of its own; the
output of the empty source file is empty, and the output ends with a
newline exactly when the last emitted construct writes one — in
particular whenever the last top-level child is a `use_statement` or a
`primitive_definition`. -/
theorem ponyfmt_C3_amended :
    (∀ opts, format_source (.node "source_file" "" []) opts = "")
    ∧ (∀ (st : String) (cs : List PonyNode) (c : PonyNode) (opts : FormatOptions),
        c.kind = "use_statement" ∨ c.kind = "primitive_definition" →
        endsWithS (format_source (.node "source_file" st (cs ++ [c])) opts) "\n" = true) := by
  constructor
  · intro opts; rfl
  · intro st cs c opts h
    unfold format_source
    rw [show formatNode [] (.node "source_file" st (cs ++ [c])) FormatterState.new opts
        = fmtSourceChildren ["source_file"] none (cs ++ [c]) FormatterState.new opts from rfl]
    obtain ⟨s', hs'⟩ := fmtSourceChildren_last ["source_file"] c opts cs none FormatterState.new
    rw [hs']
    exact formatNode_terminal_newline ["source_file"] c s' opts h

/-- Witness for C3 (amended): a source file whose single declaration is a
use statement; the output ends with a newline. -/
theorem ponyfmt_C3_amended_witness :
    endsWithS (format_source
      (.node "source_file" "use \"x\"" ([] ++ [.node "use_statement" "use \"x\""
        [.node "use" "use" [], .node "string" "\"x\"" []]]))
      FormatOptions.default) "\n" = true :=
  ponyfmt_C3_amended.2 "use \"x\"" []
    (.node "use_statement" "use \"x\"" [.node "use" "use" [], .node "string" "\"x\"" []])
    FormatOptions.default (Or.inl rfl)

/-! ### C5: error recovery for `if ... then` regions -/

/-- C5 counterexample: the claim quantifies over every error-tagged node
whose text starts with `if` and contains `then`, but the code requires
the text to start with `if ` (keyword plus space): for the ERROR text
`ifathen` — which starts with `if` and contains `then` — the recovery
formatter does not split at `then`, emits the text verbatim, and leaves
the indent level unchanged instead of increasing it by one. -/
theorem ponyfmt_C5_counterexample :
    startsWithS "ifathen" "if" = true
    ∧ containsSub "ifathen" "then" = true
    ∧ (formatNode [] (.node "ERROR" "ifathen" []) FormatterState.new
        FormatOptions.default).output = "ifathen\n"
    ∧ (formatNode [] (.node "ERROR" "ifathen" []) FormatterState.new
        FormatOptions.default).indent_level = FormatterState.new.indent_level
    ∧ ("ifathen\n" : String) ≠ "ifa then\n" := by
  refine ⟨rfl, rfl, rfl, rfl, ?_⟩
  decide

/-- C5 (amended): for every error-tagged node whose raw text starts with
`if ` (the keyword followed by a space) and contains `then`, the recovery
formatter splits the text at the first `then`, emits the trimmed prefix
followed by ` then`, forces a newline, increases the indent level by one,
and, when there is non-empty trailing content after `then`, emits that
content indented on the next line. -/
theorem ponyfmt_C5_amended (parents : List String) (t : String) (cs : List PonyNode)
    (s : FormatterState) (opts : FormatOptions) (a b : String)
    (hif : startsWithS t "if " = true)
    (hsplit : splitFirstS t "then" = some (a, b)) :
    ((formatNode parents (.node "ERROR" t cs) s opts).output
      = s.output ++ (indentOf s opts ++ (trimS a ++ (" then\n"
          ++ (if (trimS b).data.isEmpty then ""
              else spacesStr ((s.indent_level + 1).toNat * opts.indent_width) ++ trimS b)))))
    ∧ (formatNode parents (.node "ERROR" t cs) s opts).indent_level = s.indent_level + 1 := by
  have hcont : containsSub t "then" = true := by
    unfold containsSub
    unfold splitFirstS at hsplit
    cases hsc : splitFirstChars "then".data t.data with
    | none => rw [hsc] at hsplit; cases hsplit
    | some ab => rfl
  rw [show formatNode parents (.node "ERROR" t cs) s opts = formatErrorText t s opts from rfl]
  unfold formatErrorText
  rw [hif, hcont, hsplit]
  cases hemp : (trimS b).data.isEmpty with
  | true => simp [hemp, sappend_assoc, sappend_empty]
  | false => simp [hemp, indentOf, sappend_assoc, sappend_empty]

/-- Witness for C5 (amended): the spec's own scenario, the error-tagged
region `if cond then\nbody` (missing `end`), which formats to
`if cond then\n  body` — indented body, no crash, and no fabricated
`end`. -/
theorem ponyfmt_C5_amended_witness :
    (formatNode [] (.node "ERROR" "if cond then\nbody" []) FormatterState.new
      FormatOptions.default).output = "if cond then\n  body"
    ∧ (formatNode [] (.node "ERROR" "if cond then\nbody" []) FormatterState.new
      FormatOptions.default).indent_level = 1 := by
  have h := ponyfmt_C5_amended [] "if cond then\nbody" [] FormatterState.new
    FormatOptions.default "if cond " "\nbody" rfl rfl
  exact ⟨h.1.trans rfl, h.2.trans rfl⟩

/-! ### C7: body inlining applies to `method` nodes only -/

set_option maxHeartbeats 1600000 in
/-- C7 counterexample: a constructor body that is a single line far below
the threshold (`1`, one byte, no newline) is still placed on its own
line after the arrow — the `constructor`/`function_definition` handler
always writes a newline and indents the body, it never inlines, so the
claim's uniform inlining rule for "method, constructor, or behavior"
bodies is false. -/
theorem ponyfmt_C7_counterexample :
    linesCount (trimS "1") = 1
    ∧ (trimS "1").utf8ByteSize < 50
    ∧ (formatNode [] exampleShortCtor FormatterState.new FormatOptions.default).output
        = "new create() =>\n"
    ∧ ("new create() =>\n" : String) ≠ "new create() => 1" := by
  refine ⟨rfl, by decide, rfl, ?_⟩
  decide

/-- C7 (amended): the single-line inlining heuristic belongs to the
`method` handler alone: a `method` body block whose trimmed text is one
line of fewer than 50 bytes is kept on the same line preceded by exactly
one space, and otherwise is placed on its own line with the indent level
incremented for the body and decremented afterwards; a `constructor` or
`function_definition` (constructor/behaviour/`fun`) body block is always
placed on its own line with the indent incremented and decremented,
regardless of its size. -/
theorem ponyfmt_C7_amended :
    (∀ (parents : List String) (ct : String) (ccs cs : List PonyNode)
        (s : FormatterState) (opts : FormatOptions),
      linesCount (trimS ct) = 1 → (trimS ct).utf8ByteSize < 50 →
      fmtMethodChildren parents (.node "block" ct ccs :: cs) s opts
        = fmtMethodChildren parents cs ((s.write_text " ").write_text (trimS ct)) opts)
    ∧ (∀ (parents : List String) (ct : String) (ccs cs : List PonyNode)
        (s : FormatterState) (opts : FormatOptions),
      ¬ (linesCount (trimS ct) = 1 ∧ (trimS ct).utf8ByteSize < 50) →
      fmtMethodChildren parents (.node "block" ct ccs :: cs) s opts
        = fmtMethodChildren parents cs
            ((formatNode parents (.node "block" ct ccs)
              ((s.write_newline).increase_indent) opts).decrease_indent) opts)
    ∧ (∀ (parents : List String) (ct : String) (ccs cs : List PonyNode)
        (s : FormatterState) (opts : FormatOptions),
      fmtCtorChildren parents (.node "block" ct ccs :: cs) s opts
        = fmtCtorChildren parents cs
            ((formatNode parents (.node "block" ct ccs)
              ((s.write_newline).increase_indent) opts).decrease_indent) opts) := by
  refine ⟨?_, ?_, ?_⟩
  · intro parents ct ccs cs s opts h1 h2
    simp [fmtMethodChildren, PonyNode.kind, node_text, PonyNode.text, h1, h2]
  · intro parents ct ccs cs s opts hcond
    simp only [fmtMethodChildren, PonyNode.kind, node_text, PonyNode.text]
    congr 1
    simp [hcond]
  · intro parents ct ccs cs s opts
    simp [fmtCtorChildren, PonyNode.kind, node_text, PonyNode.text]

/-- Witness for C7 (amended): the first conjunct applied to the
one-character method body `1`. -/
theorem ponyfmt_C7_amended_witness :
    fmtMethodChildren [] [.node "block" "1" []] FormatterState.new FormatOptions.default
      = fmtMethodChildren [] []
          ((FormatterState.new.write_text " ").write_text (trimS "1")) FormatOptions.default :=
  ponyfmt_C7_amended.1 [] "1" [] [] FormatterState.new FormatOptions.default (by decide) (by decide)

/-! ### C8: one blank line between a primitive and a following class -/

theorem mk_eq_append (a b : String) : (⟨a.data ++ b.data⟩ : String) = a ++ b := by
  cases a; cases b; rfl

theorem splitOnChar_cons_self (c : Char) (ys : List Char) :
    splitOnChar c (c :: ys) = [] :: splitOnChar c ys := by
  simp [splitOnChar]

theorem splitOnChar_append_not_mem (c : Char) (xs : List Char) :
    ∀ (ys zs : List Char) (zss : List (List Char)),
    xs.all (fun x => x != c) = true →
    splitOnChar c ys = zs :: zss →
    splitOnChar c (xs ++ ys) = (xs ++ zs) :: zss := by
  induction xs with
  | nil =>
    intro ys zs zss _ hys
    simpa using hys
  | cons x xs' ih =>
    intro ys zs zss hall hys
    simp only [List.all_cons, Bool.and_eq_true] at hall
    obtain ⟨hx, hall'⟩ := hall
    have hx' : (x == c) = false := by
      cases hbe : x == c
      · rfl
      · exfalso
        have hx2 : (!(x == c)) = true := hx
        rw [hbe] at hx2
        exact absurd hx2 (by decide)
    rw [List.cons_append]
    simp only [splitOnChar, hx']
    rw [ih ys zs zss hall' hys]
    simp

theorem splitOnChar_all_not (c : Char) (xs : List Char)
    (h : xs.all (fun x => x != c) = true) :
    splitOnChar c xs = [xs] := by
  have h2 := splitOnChar_append_not_mem c xs [] [] [] h rfl
  simpa using h2

set_option maxHeartbeats 1600000 in
/-- C8: a `primitive_definition` immediately followed by a
`class_definition` among the top-level children produces exactly one
blank line between the two declarations: the output's lines are the
primitive line, a single empty line, and the class line. -/
theorem ponyfmt_C8_blank_line (st pt ct pname cname : String)
    (hp : pname.data.all (fun ch => ch != '\n') = true)
    (hc : cname.data.all (fun ch => ch != '\n') = true) :
    linesOf (format_source
      (.node "source_file" st
        [.node "primitive_definition" pt
          [.node "primitive" "primitive" [], .node "identifier" pname []],
         .node "class_definition" ct
          [.node "class" "class" [], .node "identifier" cname []]])
      FormatOptions.default)
      = ["primitive " ++ pname, "", "class " ++ cname] := by
  have hout : format_source
      (.node "source_file" st
        [.node "primitive_definition" pt
          [.node "primitive" "primitive" [], .node "identifier" pname []],
         .node "class_definition" ct
          [.node "class" "class" [], .node "identifier" cname []]])
      FormatOptions.default
      = (((((("primitive " ++ pname) ++ "\n") ++ "\n") ++ "") ++ "class") ++ " ") ++ cname := rfl
  rw [hout]
  unfold linesOf
  have hdata : ((((((("primitive " ++ pname) ++ "\n") ++ "\n") ++ "") ++ "class") ++ " ") ++ cname).data
      = ("primitive " : String).data
          ++ (pname.data ++ ('\n' :: '\n' :: (("class " : String).data ++ cname.data))) := by
    simp [sdata_append]
  rw [hdata]
  have hB : splitOnChar '\n' (("class " : String).data ++ cname.data)
      = [("class " : String).data ++ cname.data] := by
    apply splitOnChar_all_not
    rw [List.all_append,
      show (("class " : String).data.all fun x => x != '\n') = true from by decide, hc]
    rfl
  have h1 : splitOnChar '\n' ('\n' :: '\n' :: (("class " : String).data ++ cname.data))
      = [] :: [] :: [("class " : String).data ++ cname.data] := by
    rw [splitOnChar_cons_self, splitOnChar_cons_self, hB]
  have h2 := splitOnChar_append_not_mem '\n' pname.data _ _ _ hp h1
  have h3 := splitOnChar_append_not_mem '\n' ("primitive " : String).data _ _ _
    (by decide) h2
  rw [h3]
  simp only [List.map, List.append_nil]
  rw [mk_eq_append, mk_eq_append]

/-- Witness for C8: `primitive Pi` directly followed by `class C` (no
blank line in the source) formats with exactly one blank line between
them. -/
theorem ponyfmt_C8_blank_line_witness :
    linesOf (format_source
      (.node "source_file" "primitive Pi\nclass C"
        [.node "primitive_definition" "primitive Pi"
          [.node "primitive" "primitive" [], .node "identifier" "Pi" []],
         .node "class_definition" "class C"
          [.node "class" "class" [], .node "identifier" "C" []]])
      FormatOptions.default)
      = ["primitive " ++ "Pi", "", "class " ++ "C"] :=
  ponyfmt_C8_blank_line "primitive Pi\nclass C" "primitive Pi" "class C" "Pi" "C"
    (by decide) (by decide)

/-! ### C9 groundwork: the non-recursive helpers leave `indent_level` unchanged -/

@[simp] theorem fmtUseChildren_indent (cs : List PonyNode) (s : FormatterState) :
    (fmtUseChildren cs s).indent_level = s.indent_level := by
  unfold fmtUseChildren
  cases cs.find? (fun c => c.kind == "string") <;> simp

@[simp] theorem writeArgs_indent (args : List (List Char)) :
    ∀ (first : Bool) (s : FormatterState),
    (writeArgs args first s).indent_level = s.indent_level := by
  induction args with
  | nil => intro first s; rfl
  | cons a rest ih =>
    intro first s
    simp only [writeArgs]
    rw [ih]
    cases first <;> simp

@[simp] theorem format_arguments_indent (n : PonyNode) (s : FormatterState)
    (opts : FormatOptions) :
    (format_arguments n s opts).indent_level = s.indent_level := by
  unfold format_arguments
  simp

@[simp] theorem fmtPrimitiveChildren_indent (cs : List PonyNode) :
    ∀ s : FormatterState, (fmtPrimitiveChildren cs s).indent_level = s.indent_level := by
  induction cs with
  | nil => intro s; rfl
  | cons c rest ih =>
    intro s
    simp only [fmtPrimitiveChildren]
    rw [ih]
    split_ifs <;> simp

@[simp] theorem fmtTypeDefName_indent (cs : List PonyNode) :
    ∀ s : FormatterState, (fmtTypeDefName cs s).indent_level = s.indent_level := by
  induction cs with
  | nil => intro s; rfl
  | cons c rest ih =>
    intro s
    simp only [fmtTypeDefName]
    split_ifs <;> simp [ih]

@[simp] theorem fmtTypeDefIs_indent (cs : List PonyNode) :
    ∀ s : FormatterState, (fmtTypeDefIs cs s).indent_level = s.indent_level := by
  induction cs with
  | nil => intro s; rfl
  | cons c rest ih =>
    intro s
    simp only [fmtTypeDefIs]
    split_ifs
    · cases rest <;> simp
    · exact ih s

@[simp] theorem fmtTypeAliasChildren_indent (cs : List PonyNode) :
    ∀ s : FormatterState, (fmtTypeAliasChildren cs s).indent_level = s.indent_level := by
  induction cs with
  | nil => intro s; rfl
  | cons c rest ih =>
    intro s
    simp only [fmtTypeAliasChildren]
    rw [ih]
    split_ifs <;> simp

@[simp] theorem fmtFieldChildren_indent (cs : List PonyNode) :
    ∀ s : FormatterState, (fmtFieldChildren cs s).indent_level = s.indent_level := by
  induction cs with
  | nil => intro s; rfl
  | cons c rest ih =>
    intro s
    simp only [fmtFieldChildren]
    rw [ih]
    split_ifs <;> simp

@[simp] theorem fmtFieldDefChildren_indent (cs : List PonyNode) :
    ∀ s : FormatterState, (fmtFieldDefChildren cs s).indent_level = s.indent_level := by
  induction cs with
  | nil => intro s; rfl
  | cons c rest ih =>
    intro s
    simp only [fmtFieldDefChildren]
    rw [ih]
    split_ifs <;> simp

@[simp] theorem fmtIfBlockChildren_indent (cs : List PonyNode) :
    ∀ s : FormatterState, (fmtIfBlockChildren cs s).indent_level = s.indent_level := by
  induction cs with
  | nil => intro s; rfl
  | cons c rest ih =>
    intro s
    simp only [fmtIfBlockChildren]
    rw [ih]
    split_ifs <;> simp

@[simp] theorem writeSimpleAssignments_indent (cs : List PonyNode) :
    ∀ (first : Bool) (s : FormatterState),
    (writeSimpleAssignments cs first s).indent_level = s.indent_level := by
  induction cs with
  | nil => intro first s; rfl
  | cons c rest ih =>
    intro first s
    simp only [writeSimpleAssignments]
    split_ifs <;> simp [ih]

theorem endWrite_nonneg (X : FormatterState) (opts : FormatOptions)
    (hX : 0 ≤ X.indent_level) :
    0 ≤ (((X.decrease_indent.write_indent opts).write_text "end").write_newline).indent_level := by
  simp only [write_newline_indent, write_text_indent, write_indent_indent]
  exact decrease_indent_nonneg X hX

theorem formatErrorText_indent_nonneg (text : String) (s : FormatterState)
    (opts : FormatOptions) (h : 0 ≤ s.indent_level) :
    0 ≤ (formatErrorText text s opts).indent_level := by
  unfold formatErrorText
  split_ifs
  · cases hsc : splitFirstS text "then" with
    | some ab =>
      cases ab with
      | mk a b =>
        by_cases hb : (trimS b).data = []
        · simp [hb]
          omega
        · simp [hb]
          omega
    | none => simpa using h
  all_goals first
    | simpa using h
    | exact endWrite_nonneg _ opts (by simpa using h)
    | exact endWrite_nonneg _ opts
        (by by_cases hb : (trimS (trimEndMatchesEnd text)).data.isEmpty <;> simp [hb, h])

/-! ### C9: the indent level never goes negative -/

set_option maxHeartbeats 4000000 in
mutual

theorem formatNode_nonneg (parents : List String) (n : PonyNode) (s : FormatterState)
    (opts : FormatOptions) (h : 0 ≤ s.indent_level) :
    0 ≤ (formatNode parents n s opts).indent_level :=
  match n with
  | .node kind text children => by
    by_cases hk1 : kind = "source_file"
    · subst hk1
      exact fmtSourceChildren_nonneg ("source_file" :: parents) none children s opts h
    by_cases hk2 : kind = "block_comment"
    · subst hk2
      show 0 ≤ (((s.write_indent opts).write_text text).write_newline).indent_level
      simpa using h
    by_cases hk3 : kind = "line_comment"
    · subst hk3
      show 0 ≤ (((s.write_indent opts).write_text text).write_newline).indent_level
      simpa using h
    by_cases hk4 : kind = "use_statement"
    · subst hk4
      show 0 ≤ ((fmtUseChildren children ((s.write_indent opts).write_text "use ")).write_newline).indent_level
      simpa using h
    by_cases hk5 : kind = "actor_definition"
    · subst hk5
      exact fmtClassChildren_nonneg ("actor_definition" :: parents) children (s.write_indent opts) opts (by simpa using h)
    by_cases hk6 : kind = "class_definition"
    · subst hk6
      exact fmtClassChildren_nonneg ("class_definition" :: parents) children (s.write_indent opts) opts (by simpa using h)
    by_cases hk7 : kind = "trait_definition"
    · subst hk7
      exact fmtTraitChildren_nonneg ("trait_definition" :: parents) children (s.write_indent opts) opts (by simpa using h)
    by_cases hk8 : kind = "primitive_definition"
    · subst hk8
      show 0 ≤ ((fmtPrimitiveChildren children (s.write_indent opts)).write_newline).indent_level
      simpa using h
    by_cases hk9 : kind = "type_definition"
    · subst hk9
      show 0 ≤ ((fmtTypeDefIs children (fmtTypeDefName children ((s.write_indent opts).write_text "type "))).write_newline).indent_level
      simpa using h
    by_cases hk10 : kind = "type_alias"
    · subst hk10
      show 0 ≤ ((fmtTypeAliasChildren children ((s.write_indent opts).write_text "type ")).write_newline).indent_level
      simpa using h
    by_cases hk11 : kind = "members"
    · subst hk11
      exact fmtList_nonneg ("members" :: parents) children s opts h
    by_cases hk12 : kind = "field"
    · subst hk12
      show 0 ≤ ((fmtFieldChildren children (s.write_indent opts)).write_newline).indent_level
      simpa using h
    by_cases hk13 : kind = "field_definition"
    · subst hk13
      show 0 ≤ ((fmtFieldDefChildren children (s.write_indent opts)).write_newline).indent_level
      simpa using h
    by_cases hk14 : kind = "method"
    · subst hk14
      exact fmtMethodChildren_nonneg ("method" :: parents) children (s.write_indent opts) opts (by simpa using h)
    by_cases hk15 : kind = "constructor"
    · subst hk15
      exact fmtCtorChildren_nonneg ("constructor" :: parents) children (s.write_indent opts) opts (by simpa using h)
    by_cases hk16 : kind = "function_definition"
    · subst hk16
      exact fmtCtorChildren_nonneg ("function_definition" :: parents) children (s.write_indent opts) opts (by simpa using h)
    by_cases hk17 : kind = "if_statement"
    · subst hk17
      exact fmtIfChildren_nonneg ("if_statement" :: parents) children (s.write_indent opts) opts (by simpa using h)
    by_cases hk18 : kind = "block"
    · subst hk18
      show 0 ≤ (if (children.all fun c => c.kind == "assignment_expression" || c.kind == ";") && Nat.blt 2 children.length then (writeSimpleAssignments children true (s.write_indent opts)).write_newline else fmtList ("block" :: parents) children s opts).indent_level
      split_ifs
      · simpa using h
      · exact fmtList_nonneg ("block" :: parents) children s opts h
    by_cases hk19 : kind = "call_expression"
    · subst hk19
      show 0 ≤ (if isStandaloneCall parents then (fmtCallChildren ("call_expression" :: parents) children (if isStandaloneCall parents then s.write_indent opts else s) opts).write_newline else fmtCallChildren ("call_expression" :: parents) children (if isStandaloneCall parents then s.write_indent opts else s) opts).indent_level
      split_ifs with hst
      · exact fmtCallChildren_nonneg ("call_expression" :: parents) children (s.write_indent opts) opts (by simpa using h)
      · exact fmtCallChildren_nonneg ("call_expression" :: parents) children s opts h
    by_cases hk20 : kind = "assignment_expression"
    · subst hk20
      exact fmtAssignChildren_nonneg ("assignment_expression" :: parents) children true (s.write_indent opts) opts (by simpa using h)
    by_cases hk21 : kind = "variable_declaration"
    · subst hk21
      exact h
    by_cases hk22 : kind = "assignment"
    · subst hk22
      show 0 ≤ (((s.write_indent opts).write_text text).write_newline).indent_level
      simpa using h
    by_cases hk23 : kind = "actor"
    · subst hk23
      exact h
    by_cases hk24 : kind = "class"
    · subst hk24
      exact h
    by_cases hk25 : kind = "trait"
    · subst hk25
      exact h
    by_cases hk26 : kind = "primitive"
    · subst hk26
      exact h
    by_cases hk27 : kind = "new"
    · subst hk27
      exact h
    by_cases hk28 : kind = "fun"
    · subst hk28
      exact h
    by_cases hk29 : kind = "be"
    · subst hk29
      exact h
    by_cases hk30 : kind = "let"
    · subst hk30
      exact h
    by_cases hk31 : kind = "var"
    · subst hk31
      exact h
    by_cases hk32 : kind = "embed"
    · subst hk32
      exact h
    by_cases hk33 : kind = "identifier"
    · subst hk33
      exact h
    by_cases hk34 : kind = "parameters"
    · subst hk34
      exact h
    by_cases hk35 : kind = ":"
    · subst hk35
      exact h
    by_cases hk36 : kind = "=>"
    · subst hk36
      exact h
    by_cases hk37 : kind = "val"
    · subst hk37
      exact h
    by_cases hk38 : kind = "ref"
    · subst hk38
      exact h
    by_cases hk39 : kind = "iso"
    · subst hk39
      exact h
    by_cases hk40 : kind = "trn"
    · subst hk40
      exact h
    by_cases hk41 : kind = "box"
    · subst hk41
      exact h
    by_cases hk42 : kind = "tag"
    · subst hk42
      exact h
    by_cases hk43 : kind = "("
    · subst hk43
      exact h
    by_cases hk44 : kind = ")"
    · subst hk44
      exact h
    by_cases hk45 : kind = "="
    · subst hk45
      exact h
    by_cases hk46 : kind = "if"
    · subst hk46
      exact h
    by_cases hk47 : kind = "then"
    · subst hk47
      exact h
    by_cases hk48 : kind = "end"
    · subst hk48
      exact h
    by_cases hk49 : kind = "is"
    · subst hk49
      exact h
    by_cases hk50 : kind = "capability"
    · subst hk50
      exact h
    by_cases hk51 : kind = "ERROR"
    · subst hk51
      exact formatErrorText_indent_nonneg text s opts h
    by_cases hk52 : kind = "string"
    · subst hk52
      exact h
    have hmem : ¬ kind ∈ handledKinds := by
      intro hin
      simp only [handledKinds, List.mem_cons, List.not_mem_nil, or_false,
        hk1, hk2, hk3, hk4, hk5, hk6, hk7, hk8, hk9, hk10, hk11, hk12, hk13, hk14, hk15, hk16, hk17, hk18, hk19, hk20, hk21, hk22, hk23, hk24, hk25, hk26, hk27, hk28, hk29, hk30, hk31, hk32, hk33, hk34, hk35, hk36, hk37, hk38, hk39, hk40, hk41, hk42, hk43, hk44, hk45, hk46, hk47, hk48, hk49, hk50, hk51, hk52] at hin
    rw [formatNode_fallback_aux parents kind text children s opts hmem]
    exact fmtList_nonneg (kind :: parents) children s opts h

theorem fmtList_nonneg (parents : List String) (cs : List PonyNode) (s : FormatterState)
    (opts : FormatOptions) (h : 0 ≤ s.indent_level) :
    0 ≤ (fmtList parents cs s opts).indent_level :=
  match cs with
  | [] => h
  | c :: rest =>
    fmtList_nonneg parents rest (formatNode parents c s opts) opts
      (formatNode_nonneg parents c s opts h)

theorem fmtSourceChildren_nonneg (parents : List String) (prev : Option String)
    (cs : List PonyNode) (s : FormatterState) (opts : FormatOptions)
    (h : 0 ≤ s.indent_level) :
    0 ≤ (fmtSourceChildren parents prev cs s opts).indent_level :=
  match cs with
  | [] => h
  | c :: rest => by
    refine fmtSourceChildren_nonneg parents (some c.kind) rest _ opts
      (formatNode_nonneg parents c _ opts ?_)
    cases prev with
    | none => exact h
    | some p =>
      by_cases hbl : needs_blank_line p c.kind
      · simpa [hbl] using h
      · simpa [hbl] using h

theorem fmtClassChildren_nonneg (parents : List String) (cs : List PonyNode)
    (s : FormatterState) (opts : FormatOptions) (h : 0 ≤ s.indent_level) :
    0 ≤ (fmtClassChildren parents cs s opts).indent_level :=
  match cs with
  | [] => h
  | c :: rest => by
    refine fmtClassChildren_nonneg parents rest _ opts ?_
    split_ifs
    all_goals first
      | exact h
      | simpa using h
      | exact decrease_indent_nonneg _ (formatNode_nonneg parents c _ opts
          (by simp only [increase_indent_indent, write_newline_indent]; omega))

theorem fmtTraitChildren_nonneg (parents : List String) (cs : List PonyNode)
    (s : FormatterState) (opts : FormatOptions) (h : 0 ≤ s.indent_level) :
    0 ≤ (fmtTraitChildren parents cs s opts).indent_level :=
  match cs with
  | [] => h
  | c :: rest => by
    refine fmtTraitChildren_nonneg parents rest _ opts ?_
    split_ifs
    all_goals first
      | exact h
      | simpa using h
      | exact decrease_indent_nonneg _ (formatNode_nonneg parents c _ opts
          (by simp only [increase_indent_indent, write_newline_indent]; omega))

theorem fmtMethodChildren_nonneg (parents : List String) (cs : List PonyNode)
    (s : FormatterState) (opts : FormatOptions) (h : 0 ≤ s.indent_level) :
    0 ≤ (fmtMethodChildren parents cs s opts).indent_level :=
  match cs with
  | [] => h
  | c :: rest => by
    refine fmtMethodChildren_nonneg parents rest _ opts ?_
    split_ifs
    all_goals try exact h
    all_goals
      by_cases hb : (linesCount (trimS (node_text c)) == 1
          && Nat.blt (trimS (node_text c)).utf8ByteSize 50) = true
    · simpa [hb] using h
    · simp [hb]
      exact decrease_indent_nonneg _ (formatNode_nonneg parents c _ opts
        (by simp only [increase_indent_indent, write_newline_indent]; omega))

theorem fmtCtorChildren_nonneg (parents : List String) (cs : List PonyNode)
    (s : FormatterState) (opts : FormatOptions) (h : 0 ≤ s.indent_level) :
    0 ≤ (fmtCtorChildren parents cs s opts).indent_level :=
  match cs with
  | [] => h
  | c :: rest => by
    refine fmtCtorChildren_nonneg parents rest _ opts ?_
    split_ifs
    all_goals first
      | exact h
      | simpa using h
      | exact decrease_indent_nonneg _ (formatNode_nonneg parents c _ opts
          (by simp only [increase_indent_indent, write_newline_indent]; omega))

theorem fmtIfChildren_nonneg (parents : List String) (cs : List PonyNode)
    (s : FormatterState) (opts : FormatOptions) (h : 0 ≤ s.indent_level) :
    0 ≤ (fmtIfChildren parents cs s opts).indent_level :=
  match cs with
  | [] => h
  | PonyNode.node ck ctx ccs :: rest => by
    refine fmtIfChildren_nonneg parents rest _ opts ?_
    split_ifs
    all_goals first
      | exact h
      | simpa using h
      | exact fmtThenChildren_nonneg ("then_block" :: parents) ccs s opts h

theorem fmtThenChildren_nonneg (parents : List String) (cs : List PonyNode)
    (s : FormatterState) (opts : FormatOptions) (h : 0 ≤ s.indent_level) :
    0 ≤ (fmtThenChildren parents cs s opts).indent_level :=
  match cs with
  | [] => h
  | c :: rest => by
    refine fmtThenChildren_nonneg parents rest _ opts ?_
    split_ifs
    all_goals first
      | exact h
      | simpa using h
      | exact decrease_indent_nonneg _ (formatNode_nonneg parents c _ opts
          (by simp only [increase_indent_indent]; omega))

theorem fmtCallChildren_nonneg (parents : List String) (cs : List PonyNode)
    (s : FormatterState) (opts : FormatOptions) (h : 0 ≤ s.indent_level) :
    0 ≤ (fmtCallChildren parents cs s opts).indent_level :=
  match cs with
  | [] => h
  | c :: rest => by
    refine fmtCallChildren_nonneg parents rest _ opts ?_
    split_ifs
    all_goals first
      | exact h
      | simpa using h
      | exact formatNode_nonneg parents c s opts h

theorem fmtAssignChildren_nonneg (parents : List String) (cs : List PonyNode)
    (first : Bool) (s : FormatterState) (opts : FormatOptions)
    (h : 0 ≤ s.indent_level) :
    0 ≤ (fmtAssignChildren parents cs first s opts).indent_level :=
  match cs with
  | [] => h
  | PonyNode.node ck ctx ccs :: rest => by
    refine fmtAssignChildren_nonneg parents rest false _ opts ?_
    split_ifs
    all_goals first
      | exact h
      | simpa using h
      | exact fmtList_nonneg ("block" :: parents) ccs s opts h
      | (dsimp only
         split_ifs
         all_goals first
           | simpa using h
           | exact fmtList_nonneg ("block" :: parents) ccs s opts h)
      | exact formatNode_nonneg parents (PonyNode.node ck ctx ccs) s opts h

end

/-- C9: the formatter's `indent_level` is never negative: it starts at 0,
`increase_indent` adds one, `decrease_indent` at level 0 leaves it at 0,
and every formatting operation of a run preserves non-negativity, so a
whole run from a fresh state ends with a non-negative level. -/
theorem ponyfmt_C9_indent_never_negative :
    FormatterState.new.indent_level = 0
    ∧ (∀ s : FormatterState, s.increase_indent.indent_level = s.indent_level + 1)
    ∧ (∀ s : FormatterState, s.indent_level = 0 → s.decrease_indent.indent_level = 0)
    ∧ (∀ (parents : List String) (n : PonyNode) (s : FormatterState) (opts : FormatOptions),
        0 ≤ s.indent_level → 0 ≤ (formatNode parents n s opts).indent_level)
    ∧ (∀ (tree : PonyNode) (opts : FormatOptions),
        0 ≤ (formatNode [] tree FormatterState.new opts).indent_level) := by
  refine ⟨rfl, fun s => rfl, ?_, formatNode_nonneg, ?_⟩
  · intro s hs
    simp [FormatterState.decrease_indent, hs]
  · intro tree opts
    exact formatNode_nonneg [] tree FormatterState.new opts (le_refl 0)

/-- Witness for C9: a run over an error-tagged `end` region, which calls
`decrease_indent` at level 0, still ends non-negative. -/
theorem ponyfmt_C9_indent_never_negative_witness :
    0 ≤ (formatNode [] (.node "ERROR" "end" []) FormatterState.new
      FormatOptions.default).indent_level :=
  ponyfmt_C9_indent_never_negative.2.2.2.1 [] (.node "ERROR" "end" [])
    FormatterState.new FormatOptions.default (by decide)
